import Mathlib

/-!
Shallow embedding of the `jsonrpc-v2` dispatch engine (Rust sources in
`src/`): the protocol envelope and identifier model (`src/lib.rs`,
`src/request.rs`), the response types (`src/response.rs`), the error
constants (`src/error.rs`), the router (`src/router.rs`), the middleware
continuation chain (`src/middleware.rs`) and the dispatch engine
(`src/server.rs`).

Modelling conventions:
* async futures are collapsed to pure sequential evaluation (each batch
  element is evaluated in input order — the Rust engine polls a
  `FuturesUnordered`, so the completion ORDER is nondeterministic, but the
  multiset of produced responses is not; the order-independent claims are
  stated over this canonical schedule);
* `BoxedSerialize` (an opaque serializable value) is modelled by a JSON
  value type `Json`; JSON numeric literals are modelled as integers
  (the claims under study do not involve fractional numbers);
* the `jsonrpc: V2` marker field is a unit struct and is omitted from the
  Lean record; its deserialization check is part of
  `fromJsonBytesRequestObject` below;
* `serde_json::value::RawValue` (an unparsed slice known to hold one
  well-formed JSON value) is modelled by the parsed `Json` value itself;
  deserializing a `BytesRequestObject` from a raw slice is modelled by
  `fromJsonBytesRequestObject` on that value.
-/

namespace JsonRpcV2

/-- JSON values (numbers restricted to integers, see module docstring). -/
inductive Json where
  | null : Json
  | bool (b : Bool) : Json
  | num (n : Int) : Json
  | str (s : String) : Json
  | arr (xs : List Json) : Json
  | obj (kvs : List (String × Json)) : Json

/-- `Id` from `src/lib.rs`: container for the request ID, which can be a
string, number, or null. -/
inductive Id where
  | Num (n : Int) : Id
  | Str (s : String) : Id
  | Null : Id
deriving DecidableEq

/-- `Id::is_null` from `src/lib.rs`. -/
def Id.is_null : Id → Bool
  | Id.Null => true
  | _ => false

/-- `Error` from `src/error.rs`: `Full { code, message, data }` or
`Provided { code, message }`. -/
inductive Error where
  | Full (code : Int) (message : String) (data : Option Json) : Error
  | Provided (code : Int) (message : String) : Error

def Error.INVALID_REQUEST : Error := Error.Provided (-32600) "Invalid Request"

def Error.METHOD_NOT_FOUND : Error := Error.Provided (-32601) "Method not found"

def Error.INVALID_PARAMS : Error := Error.Provided (-32602) "Invalid params"

def Error.INTERNAL_ERROR : Error := Error.Provided (-32603) "Internal Error"

def Error.PARSE_ERROR : Error := Error.Provided (-32700) "Parse error"

/-- `RequestObject` from `src/request.rs` (the `jsonrpc : V2` unit marker
field is omitted; `params` collapses the two `InnerParams` forms — raw
slice and structured value — to the JSON value they denote; `id` keeps the
field-presence tristate `Option<Option<Id>>`). -/
structure RequestObject where
  method : String
  params : Option Json
  id : Option (Option Id)

/-- The type-erased handler calling convention from `src/handler.rs`:
`BoxedHandler` wraps `Fn(RequestObject, M) -> Future<Result<BoxedSerialize, Error>>`,
collapsed to a pure function. -/
def BoxedHandler (M : Type) : Type := RequestObject → M → Except Error Json

/-- A middleware, modelling the blanket `Middleware` impl for functions in
`src/middleware.rs`: a single-step transform
`Fn(RequestObject, M) -> Result<(RequestObject, M), Error>` whose `handle`
applies the transform and, on success, delegates to `next.run`; on failure
the chain short-circuits with the error.  `label` is bookkeeping used only
to observe execution order in the theorems (the Rust trait objects have no
observable identity). -/
structure Mw (M : Type) where
  label : String
  step : RequestObject → M → Except Error (RequestObject × M)

/-- The recursion of `Next::run` from `src/middleware.rs` (split off the
first remaining middleware and hand it the rest of the chain; when the
list is empty invoke the endpoint), instrumented with the list of labels
of the chain steps that actually ran, `"handler"` standing for the
endpoint. -/
def runMwTraced {M : Type} (endpoint : BoxedHandler M) :
    List (Mw M) → RequestObject → M → Except Error Json × List String
  | [], req, m => (endpoint req m, ["handler"])
  | mw :: rest, req, m =>
    match mw.step req m with
    | Except.error e => (Except.error e, [mw.label])
    | Except.ok (req2, m2) =>
      let r := runMwTraced endpoint rest req2 m2
      (r.1, mw.label :: r.2)

/-- `Next` from `src/middleware.rs`: the continuation holding the endpoint
and the remaining middleware slice. -/
structure Next (M : Type) where
  endpoint : BoxedHandler M
  next_middleware : List (Mw M)

/-- `Next::run`: the result of running the remaining chain into the
endpoint (the trace component of `runMwTraced` discarded). -/
def Next.run {M : Type} (n : Next M) (req : RequestObject) (m : M) :
    Except Error Json :=
  (runMwTraced n.endpoint n.next_middleware req m).1

/-- `ResponseObject` from `src/response.rs` (the constant `jsonrpc: V2`
field omitted). -/
inductive ResponseObject where
  | Result (result : Json) (id : Id) : ResponseObject
  | Error (error : Error) (id : Id) : ResponseObject

/-- The `id` field common to both response variants. -/
def ResponseObject.id : ResponseObject → Id
  | ResponseObject.Result _ i => i
  | ResponseObject.Error _ i => i

/-- `SingleResponseObject` from `src/response.rs`. -/
inductive SingleResponseObject where
  | One (r : ResponseObject) : SingleResponseObject
  | Empty : SingleResponseObject

/-- `ManyResponseObjects` from `src/response.rs`. -/
inductive ManyResponseObjects where
  | Many (rs : List ResponseObject) : ManyResponseObjects
  | Empty : ManyResponseObjects

/-- `ResponseObjects` from `src/response.rs`. -/
inductive ResponseObjects where
  | One (r : ResponseObject) : ResponseObjects
  | Many (rs : List ResponseObject) : ResponseObjects
  | Empty : ResponseObjects

/-- `SingleResponseObject::result` from `src/response.rs`, combined with
the resolved-id computation of `Server::handle_request_object` in
`src/server.rs`: the id argument carries the tristate already collapsed to
`Option Id` (`none` = id field absent, `some Id.Null` = id field present as
null); an absent id produces no response, and `SingleResponseObject::result`
additionally maps `Id::Null` to `Empty` (this fork's notification-on-null
deviation). -/
def SingleResponseObject.result (result : Json) :
    Option Id → SingleResponseObject
  | none => SingleResponseObject.Empty
  | some Id.Null => SingleResponseObject.Empty
  | some i => SingleResponseObject.One (ResponseObject.Result result i)

/-- `SingleResponseObject::error` from `src/response.rs` (same id
handling as `SingleResponseObject.result`). -/
def SingleResponseObject.error (e : Error) : Option Id → SingleResponseObject
  | none => SingleResponseObject.Empty
  | some Id.Null => SingleResponseObject.Empty
  | some i => SingleResponseObject.One (ResponseObject.Error e i)

/-- `Route` from `src/router.rs`: one boxed handler plus the middleware
list attached at registration time. -/
structure Route (M : Type) where
  handler : BoxedHandler M
  middlewares : List (Mw M)

/-- `MapRouter` from `src/router.rs`, the `HashMap<String, Route>`
modelled as an association list (most recent insertion first). -/
structure MapRouter (M : Type) where
  entries : List (String × Route M)

def MapRouter.default {M : Type} : MapRouter M := ⟨[]⟩

/-- `Router::get` for `MapRouter`. -/
def MapRouter.get {M : Type} (r : MapRouter M) (name : String) :
    Option (Route M) :=
  (r.entries.find? (fun kv => kv.1 = name)).map (fun kv => kv.2)

/-- `Router::insert` for `MapRouter`: `HashMap::insert` overwrites and
returns the displaced route, if any. -/
def MapRouter.insert {M : Type} (r : MapRouter M) (name : String)
    (route : Route M) : MapRouter M × Option (Route M) :=
  (⟨(name, route) :: r.entries.filter (fun kv => kv.1 ≠ name)⟩, r.get name)

/-- `Server` from `src/server.rs` (the `middlewares` field is kept; it is
dead code in dispatch, as in the source). -/
structure Server (M : Type) where
  router : MapRouter M
  middlewares : List (Mw M)

/-- `DocRoute` from `src/documentation.rs` (the paperclip schemas carry no
dispatch content and are reduced to the route name). -/
structure DocRoute where
  name : String
deriving DecidableEq

/-- `DocNotification` from `src/documentation.rs` (schema dropped as in
`DocRoute`). -/
structure DocNotification where
  name : String
deriving DecidableEq

/-- `ServerBuilder` from `src/server.rs`. -/
structure ServerBuilder (M : Type) where
  router : MapRouter M
  routes : List DocRoute
  notifications : List DocNotification
  middlewares : List (Mw M)

/-- `Server::with_router` from `src/server.rs`. -/
def Server.with_router {M : Type} (router : MapRouter M)
    (middlewares : List (Mw M)) : ServerBuilder M :=
  ⟨router, [], [], middlewares⟩

/-- `Server::new` from `src/server.rs`. -/
def Server.new {M : Type} (middlewares : List (Mw M)) : ServerBuilder M :=
  Server.with_router MapRouter.default middlewares

/-- `ServerBuilder::with_method_middleware` from `src/server.rs`: records
a doc route, then pushes each of the builder's global middlewares onto the
END of the supplied route-specific middleware list
(`self.middlewares.iter().for_each(|el| middlewares.push(el.clone()))`),
and inserts the route. -/
def ServerBuilder.with_method_middleware {M : Type} (b : ServerBuilder M)
    (name : String) (handler : BoxedHandler M) (middlewares : List (Mw M)) :
    ServerBuilder M :=
  let routes := b.routes ++ [⟨name⟩]
  let mws := middlewares ++ b.middlewares
  let route : Route M := ⟨handler, mws⟩
  ⟨(b.router.insert name route).1, routes, b.notifications, b.middlewares⟩

/-- `ServerBuilder::with_method` from `src/server.rs`: registration with
an empty route-specific middleware list. -/
def ServerBuilder.with_method {M : Type} (b : ServerBuilder M)
    (name : String) (handler : BoxedHandler M) : ServerBuilder M :=
  b.with_method_middleware name handler []

/-- The type-erased `SpecHandler` from `src/documentation.rs`, as stored
by `ServerBuilder::add_documentation_route`: returns the serialized pair
of recorded doc routes and notifications. -/
def specHandler {M : Type} (routes : List DocRoute)
    (notifications : List DocNotification) : BoxedHandler M :=
  fun _ _ =>
    Except.ok (Json.arr
      [Json.arr (routes.map (fun r => Json.str r.name)),
       Json.arr (notifications.map (fun n => Json.str n.name))])

/-- `ServerBuilder::add_documentation_route` from `src/server.rs`:
inserts the spec handler under the name `"__docs__"` with no middlewares. -/
def ServerBuilder.add_documentation_route {M : Type} (b : ServerBuilder M) :
    ServerBuilder M :=
  let route : Route M := ⟨specHandler b.routes b.notifications, []⟩
  ⟨(b.router.insert "__docs__" route).1, b.routes, b.notifications,
   b.middlewares⟩

/-- `ServerBuilder::finish` from `src/server.rs` (the `Arc` wrapper is
identity in the model). -/
def ServerBuilder.finish {M : Type} (b : ServerBuilder M) : Server M :=
  let builder := b.add_documentation_route
  ⟨builder.router, builder.middlewares⟩

/-- `ServerBuilder::finish_unwrapped` from `src/server.rs`: no
documentation route is added. -/
def ServerBuilder.finish_unwrapped {M : Type} (b : ServerBuilder M) :
    Server M :=
  ⟨b.router, b.middlewares⟩

/-- `Server::handle_request_object` from `src/server.rs`: resolve the id
tristate, route by method name, run the middleware chain into the handler
and shape the single response (Method Not Found when the route is
absent). -/
def Server.handle_request_object {M : Type} (s : Server M)
    (req : RequestObject) (metadata : M) : SingleResponseObject :=
  let opt_id : Option Id :=
    match req.id with
    | some (some i) => some i
    | some none => some Id.Null
    | none => none
  match s.router.get req.method with
  | some route =>
    let next : Next M := ⟨route.handler, route.middlewares⟩
    match next.run req metadata with
    | Except.ok val => SingleResponseObject.result val opt_id
    | Except.error e => SingleResponseObject.error e opt_id
  | none => SingleResponseObject.error Error.METHOD_NOT_FOUND opt_id

/-- The body of the `filter_map` closure in
`Server::handle_many_request_objects`: keep the response of a `One`,
drop an `Empty`. -/
def singleToOption : SingleResponseObject → Option ResponseObject
  | SingleResponseObject.One r => some r
  | SingleResponseObject.Empty => none

/-- `Server::handle_many_request_objects` from `src/server.rs`: handle
each request, keep the non-empty single responses (here in input order;
the Rust `FuturesUnordered` collects them in completion order), and
collapse an empty collection to `Empty`. -/
def Server.handle_many_request_objects {M : Type} (s : Server M)
    (reqs : List RequestObject) (metadata : M) : ManyResponseObjects :=
  let vec := reqs.filterMap (fun r =>
    singleToOption (s.handle_request_object r metadata))
  if vec.isEmpty then ManyResponseObjects.Empty
  else ManyResponseObjects.Many vec

/-! ### A model of the `serde_json` layer

`Server::handle_bytes` relies on `serde_json` for two things: splitting
raw bytes into one-or-many raw JSON values
(`OneOrManyRawValues::try_from_slice` in `src/lib.rs`) and deserializing a
`BytesRequestObject` from a raw value (`src/request.rs`).  The byte level
is modelled by a recursive-descent JSON parser over `List Char` (strings
with the basic single-character escapes, integer numeric literals, no
`\u` escapes — none of the claims involve them). -/

/-- JSON insignificant whitespace (RFC 8259: space, tab, LF, CR). -/
def isJsonWs (c : Char) : Bool :=
  c = ' ' || c = '\t' || c = '\n' || c = '\r'

/-- Drop leading JSON whitespace. -/
def skipWs : List Char → List Char
  | [] => []
  | c :: rest => if isJsonWs c then skipWs rest else c :: rest

/-- Parse the body of a JSON string after the opening quote, handling the
single-character escapes. -/
def parseStrAux : Nat → List Char → String → Option (String × List Char)
  | 0, _, _ => none
  | _ + 1, [], _ => none
  | fuel + 1, c :: rest, acc =>
    if c = '"' then some (acc, rest)
    else if c = '\\' then
      match rest with
      | [] => none
      | e :: rest2 =>
        let dec : Option Char :=
          if e = '"' then some '"'
          else if e = '\\' then some '\\'
          else if e = '/' then some '/'
          else if e = 'n' then some '\n'
          else if e = 't' then some '\t'
          else if e = 'r' then some '\r'
          else none
        match dec with
        | some ch => parseStrAux fuel rest2 (acc.push ch)
        | none => none
    else parseStrAux fuel rest (acc.push c)

/-- Parse a nonempty run of decimal digits into the natural number they
denote (accumulator style; `seen` records whether at least one digit was
consumed). -/
def parseDigits : List Char → Nat → Bool → Option (Nat × List Char)
  | c :: rest, acc, seen =>
    if c.isDigit then parseDigits rest (acc * 10 + (c.toNat - '0'.toNat)) true
    else if seen then some (acc, c :: rest) else none
  | [], acc, seen => if seen then some (acc, []) else none

mutual

/-- Parse one JSON value (leading whitespace allowed). -/
def parseValue : Nat → List Char → Option (Json × List Char)
  | 0, _ => none
  | fuel + 1, s =>
    match skipWs s with
    | [] => none
    | c :: rest =>
      if c = 'n' then
        match rest with
        | 'u' :: 'l' :: 'l' :: rest2 => some (Json.null, rest2)
        | _ => none
      else if c = 't' then
        match rest with
        | 'r' :: 'u' :: 'e' :: rest2 => some (Json.bool true, rest2)
        | _ => none
      else if c = 'f' then
        match rest with
        | 'a' :: 'l' :: 's' :: 'e' :: rest2 => some (Json.bool false, rest2)
        | _ => none
      else if c = '"' then
        match parseStrAux fuel rest "" with
        | some (s, rest2) => some (Json.str s, rest2)
        | none => none
      else if c = '[' then
        match skipWs rest with
        | ']' :: rest2 => some (Json.arr [], rest2)
        | rest2 =>
          match parseArrItems fuel rest2 with
          | some (xs, rest3) => some (Json.arr xs, rest3)
          | none => none
      else if c = '{' then
        match skipWs rest with
        | '}' :: rest2 => some (Json.obj [], rest2)
        | rest2 =>
          match parseObjItems fuel rest2 with
          | some (kvs, rest3) => some (Json.obj kvs, rest3)
          | none => none
      else if c = '-' then
        match parseDigits rest 0 false with
        | some (n, rest2) => some (Json.num (-(Int.ofNat n)), rest2)
        | none => none
      else if c.isDigit then
        match parseDigits (c :: rest) 0 false with
        | some (n, rest2) => some (Json.num (Int.ofNat n), rest2)
        | none => none
      else none

/-- Parse the comma-separated items of a JSON array up to and including
the closing bracket. -/
def parseArrItems : Nat → List Char → Option (List Json × List Char)
  | 0, _ => none
  | fuel + 1, s =>
    match parseValue fuel s with
    | none => none
    | some (j, rest) =>
      match skipWs rest with
      | ',' :: rest2 =>
        match parseArrItems fuel rest2 with
        | some (xs, rest3) => some (j :: xs, rest3)
        | none => none
      | ']' :: rest2 => some ([j], rest2)
      | _ => none

/-- Parse the comma-separated members of a JSON object up to and
including the closing brace. -/
def parseObjItems : Nat → List Char → Option (List (String × Json) × List Char)
  | 0, _ => none
  | fuel + 1, s =>
    match skipWs s with
    | '"' :: rest =>
      match parseStrAux fuel rest "" with
      | none => none
      | some (k, rest2) =>
        match skipWs rest2 with
        | ':' :: rest3 =>
          match parseValue fuel rest3 with
          | none => none
          | some (v, rest4) =>
            match skipWs rest4 with
            | ',' :: rest5 =>
              match parseObjItems fuel rest5 with
              | some (kvs, rest6) => some ((k, v) :: kvs, rest6)
              | none => none
            | '}' :: rest5 => some ([(k, v)], rest5)
            | _ => none
        | _ => none
    | _ => none

end

/-- Parse a complete JSON document: one value, with only whitespace
allowed after it (as `serde_json::from_slice` requires). -/
def parseTopLevel (s : List Char) : Option Json :=
  match parseValue (4 * s.length + 8) s with
  | some (j, rest) => if skipWs rest = [] then some j else none
  | none => none

/-- `OneOrManyRawValues` from `src/lib.rs`, raw values kept as parsed
JSON values. -/
inductive OneOrManyRawValues where
  | Many (raws : List Json) : OneOrManyRawValues
  | One (raw : Json) : OneOrManyRawValues

/-- Whether the split classified the input as a batch. -/
def OneOrManyRawValues.isMany : OneOrManyRawValues → Bool
  | OneOrManyRawValues.Many _ => true
  | OneOrManyRawValues.One _ => false

/-- `OneOrManyRawValues::try_from_slice` from `src/lib.rs`: when the very
first byte of the slice is `[` the slice must parse as a JSON array of
raw values; otherwise it must parse as one raw value. -/
def OneOrManyRawValues.try_from_slice (slice : List Char) :
    Except Unit OneOrManyRawValues :=
  if slice.head? = some '[' then
    match parseTopLevel slice with
    | some (Json.arr xs) => Except.ok (OneOrManyRawValues.Many xs)
    | _ => Except.error ()
  else
    match parseTopLevel slice with
    | some j => Except.ok (OneOrManyRawValues.One j)
    | none => Except.error ()

/-- First-match lookup of a field in a JSON object's member list. -/
def lookupField (kvs : List (String × Json)) (name : String) : Option Json :=
  (kvs.find? (fun kv => kv.1 = name)).map (fun kv => kv.2)

/-- `V2::deserialize` from `src/lib.rs`: expects exactly the string
`"2.0"`; any other value is a deserialization error. -/
def deserializeV2 : Json → Except String Unit
  | Json.str s => if s = "2.0" then Except.ok () else Except.error "Could not deserialize V2"
  | _ => Except.error "expected string"

/-- Deserialization of `Option<Id>` (serde untagged `Id` under `Option`):
JSON null is `None`; an integer or a string is `Some`; anything else is an
error. -/
def deserializeOptId : Json → Except String (Option Id)
  | Json.null => Except.ok none
  | Json.num n => Except.ok (some (Id.Num n))
  | Json.str s => Except.ok (some (Id.Str s))
  | _ => Except.error "data did not match any variant of untagged enum Id"

/-- serde deserialization of `BytesRequestObject` from `src/request.rs`
applied to one raw JSON value. The container has `#[serde(default)]`, so
every missing field falls back to the field's `Default` value (`V2` for
`jsonrpc`, the empty string for `method`, `None` for `params` and `id`);
`id` uses `RequestObject::deserialize_id`, which wraps the decoded
`Option<Id>` in `Some` whenever the field is present. Unknown fields are
ignored. (`From<BytesRequestObject> for RequestObject` is the identity in
the model, `params` already being a JSON value.) -/
def fromJsonBytesRequestObject : Json → Except String RequestObject
  | Json.obj kvs => do
    let _ ← match lookupField kvs "jsonrpc" with
      | some j => deserializeV2 j
      | none => Except.ok ()
    let method ← match lookupField kvs "method" with
      | some (Json.str s) => Except.ok s
      | some _ => Except.error "invalid type for field method"
      | none => Except.ok ""
    let params : Option Json ← match lookupField kvs "params" with
      | some Json.null => Except.ok none
      | some j => Except.ok (some j)
      | none => Except.ok none
    let i ← match lookupField kvs "id" with
      | some j => do
        let oid ← deserializeOptId j
        Except.ok (some oid)
      | none => Except.ok (none : Option (Option Id))
    Except.ok ⟨method, params, i⟩
  | _ => Except.error "invalid type: expected struct BytesRequestObject"

/-- The `Ok` side of the `partition`/`flatten` in `Server::handle_bytes`:
a successfully deserialized request, or nothing. -/
def exceptToOption {E A : Type} : Except E A → Option A
  | Except.ok a => some a
  | Except.error _ => none

/-- The complement of `Result::is_ok`, selecting the failed
deserializations of the `partition` in `Server::handle_bytes`. -/
def exceptIsError {E A : Type} : Except E A → Bool
  | Except.ok _ => false
  | Except.error _ => true

/-- `Server::handle_bytes` from `src/server.rs`: split the slice into
one-or-many raw values (`Parse Error` on failure); an empty batch is a
single top-level `Invalid Request`; in a non-empty batch each raw value is
deserialized, failures each becoming an `Invalid Request` response with
null id appended after the handled valid requests; a single raw value is
deserialized and dispatched (`Invalid Request` on failure). -/
def Server.handle_bytes {M : Type} (s : Server M) (bytes : List Char)
    (metadata : M) : ResponseObjects :=
  match OneOrManyRawValues.try_from_slice bytes with
  | Except.ok (OneOrManyRawValues.Many raw_reqs) =>
    if raw_reqs.isEmpty then
      ResponseObjects.One (ResponseObject.Error Error.INVALID_REQUEST Id.Null)
    else
      let parsed := raw_reqs.map fromJsonBytesRequestObject
      let okays := parsed.filterMap exceptToOption
      let errs := (parsed.filter exceptIsError).map (fun _ =>
        ResponseObject.Error Error.INVALID_REQUEST Id.Null)
      match s.handle_many_request_objects okays metadata with
      | ManyResponseObjects.Many many => ResponseObjects.Many (many ++ errs)
      | ManyResponseObjects.Empty =>
        if errs.isEmpty then ResponseObjects.Empty
        else ResponseObjects.Many errs
  | Except.ok (OneOrManyRawValues.One raw_req) =>
    match fromJsonBytesRequestObject raw_req with
    | Except.ok rn =>
      match s.handle_request_object rn metadata with
      | SingleResponseObject.One r => ResponseObjects.One r
      | SingleResponseObject.Empty => ResponseObjects.Empty
    | Except.error _ =>
      ResponseObjects.One (ResponseObject.Error Error.INVALID_REQUEST Id.Null)
  | Except.error _ =>
    ResponseObjects.One (ResponseObject.Error Error.PARSE_ERROR Id.Null)

/-! ### Observation helpers used by the theorems -/

/-- The produced response objects as a list. -/
def ResponseObjects.toList : ResponseObjects → List ResponseObject
  | ResponseObjects.One r => [r]
  | ResponseObjects.Many rs => rs
  | ResponseObjects.Empty => []

/-- Number of produced response objects. -/
def ResponseObjects.count (r : ResponseObjects) : Nat := r.toList.length

/-- The response objects of a batch result as a list. -/
def ManyResponseObjects.toList : ManyResponseObjects → List ResponseObject
  | ManyResponseObjects.Many rs => rs
  | ManyResponseObjects.Empty => []

/-- Whether a response object is the `Invalid Request` error tagged with a
null id. -/
def isInvalidRequestNull : ResponseObject → Bool
  | ResponseObject.Error (Error.Provided c m) Id.Null =>
    c = -32600 && m = "Invalid Request"
  | _ => false

/-- The execution trace of dispatching a request: the labels of the
middleware steps that ran, in order, `"handler"` standing for the terminal
handler (empty when the method is not routed). -/
def Server.dispatchTrace {M : Type} (s : Server M) (req : RequestObject)
    (metadata : M) : List String :=
  match s.router.get req.method with
  | some route => (runMwTraced route.handler route.middlewares req metadata).2
  | none => []

/-- Whether one raw batch element deserializes to a request that
contributes a visible (non-suppressed) response: a valid envelope whose id
field holds a concrete non-null id. -/
def contributesOk (j : Json) : Bool :=
  match fromJsonBytesRequestObject j with
  | Except.ok r =>
    match r.id with
    | some (some i) => !i.is_null
    | _ => false
  | Except.error _ => false

/-- Whether one raw batch element fails envelope deserialization. -/
def isMalformed (j : Json) : Bool :=
  match fromJsonBytesRequestObject j with
  | Except.ok _ => false
  | Except.error _ => true

/-- The visible response one raw batch element contributes: deserialize
the envelope, dispatch it, and keep the response when it is not
suppressed (`none` for malformed elements, whose Invalid Request entries
are accounted separately). -/
def dispatchRaw {M : Type} (s : Server M) (m : M) (j : Json) :
    Option ResponseObject :=
  match fromJsonBytesRequestObject j with
  | Except.ok req => singleToOption (s.handle_request_object req m)
  | Except.error _ => none

/-- Whether a request's id field holds a concrete non-null id (the
"reply expected" predicate of the tristate). -/
def requestContributes (req : RequestObject) : Bool :=
  match req.id with
  | some (some i) => !i.is_null
  | _ => false

/-- The `Invalid Request` response tagged with a null id that
`Server::handle_bytes` emits for malformed input. -/
def invalidRequestNull : ResponseObject :=
  ResponseObject.Error Error.INVALID_REQUEST Id.Null

/-! ### Concrete fixtures used by witnesses and counterexamples -/

/-- A handler answering `"pong"` unconditionally. -/
def pingHandler : BoxedHandler Unit := fun _ _ => Except.ok (Json.str "pong")

/-- A server with the single user method `"ping"` and no middleware. -/
def testServer : Server Unit :=
  ((Server.new []).with_method "ping" pingHandler).finish_unwrapped

/-- A middleware that records its label and delegates unchanged. -/
def mwProceed (lbl : String) : Mw Unit :=
  ⟨lbl, fun req m => Except.ok (req, m)⟩

/-- A middleware that records its label and short-circuits with
`Internal Error`. -/
def mwFail (lbl : String) : Mw Unit :=
  ⟨lbl, fun _ _ => Except.error Error.INTERNAL_ERROR⟩

/-- A server built with global middlewares `[A, B]` and one route `"m"`
carrying its own middleware list `[C]`. -/
def srvABC : Server Unit :=
  ((Server.new [mwProceed "A", mwProceed "B"]).with_method_middleware "m"
    pingHandler [mwProceed "C"]).finish_unwrapped

/-- Like `srvABC` but with the global middleware `B` short-circuiting. -/
def srvABshort : Server Unit :=
  ((Server.new [mwProceed "A", mwFail "B"]).with_method_middleware "m"
    pingHandler [mwProceed "C"]).finish_unwrapped

def reqM : RequestObject := ⟨"m", none, some (some (Id.Num 1))⟩

def reqPing1 : RequestObject := ⟨"ping", none, some (some (Id.Num 1))⟩

def reqPingNoId : RequestObject := ⟨"ping", none, none⟩

def reqPingNullId : RequestObject := ⟨"ping", none, some none⟩

def reqUnknown7 : RequestObject := ⟨"foo.bar", none, some (some (Id.Num 7))⟩

/-- Raw bytes of a three-element batch: a call to `ping` with id 1, a
`ping` notification, and a structurally malformed element (non-string
`method`). -/
def batchBytes : String :=
  "[\x7b\"jsonrpc\":\"2.0\",\"method\":\"ping\",\"id\":1\x7d, \x7b\"jsonrpc\":\"2.0\",\"method\":\"ping\"\x7d, \x7b\"method\":5\x7d]"

/-- The raw values `batchBytes` parses to. -/
def batchRaws : List Json :=
  [Json.obj [("jsonrpc", Json.str "2.0"), ("method", Json.str "ping"),
             ("id", Json.num 1)],
   Json.obj [("jsonrpc", Json.str "2.0"), ("method", Json.str "ping")],
   Json.obj [("method", Json.num 5)]]

/-! ### Shared dispatch lemmas -/

/-- Dispatching a request whose id field is absent, or present as null,
produces no response, whatever the router and handlers do. -/
theorem handle_request_object_suppressed {M : Type} (s : Server M)
    (req : RequestObject) (m : M)
    (h : req.id = none ∨ req.id = some none) :
    s.handle_request_object req m = SingleResponseObject.Empty := by
  unfold Server.handle_request_object
  rcases h with h | h <;> rw [h] <;> dsimp only <;> split
  · split <;> rfl
  · rfl
  · split <;> rfl
  · rfl

/-- Dispatching a request whose id field holds a concrete non-null id
produces exactly one response object, carrying that id. -/
theorem handle_request_object_concrete {M : Type} (s : Server M)
    (req : RequestObject) (m : M) (i : Id)
    (hid : req.id = some (some i)) (hnn : i.is_null = false) :
    ∃ r, s.handle_request_object req m = SingleResponseObject.One r ∧
      r.id = i := by
  unfold Server.handle_request_object
  rw [hid]
  dsimp only
  cases i with
  | Null => simp [Id.is_null] at hnn
  | Num n =>
    split
    · split
      · exact ⟨_, rfl, rfl⟩
      · exact ⟨_, rfl, rfl⟩
    · exact ⟨_, rfl, rfl⟩
  | Str st =>
    split
    · split
      · exact ⟨_, rfl, rfl⟩
      · exact ⟨_, rfl, rfl⟩
    · exact ⟨_, rfl, rfl⟩

/-- A dispatched request yields a visible response exactly when its id
field holds a concrete non-null id. -/
theorem handle_request_object_isSome {M : Type} (s : Server M)
    (req : RequestObject) (m : M) :
    (singleToOption (s.handle_request_object req m)).isSome =
      requestContributes req := by
  unfold requestContributes
  rcases hid : req.id with _ | oid
  · rw [handle_request_object_suppressed s req m (Or.inl hid)]; rfl
  · cases oid with
    | none => rw [handle_request_object_suppressed s req m (Or.inr hid)]; rfl
    | some i =>
      cases hnn : i.is_null with
      | false =>
        obtain ⟨r, hr, -⟩ := handle_request_object_concrete s req m i hid hnn
        rw [hr]
        simp [singleToOption, hnn]
      | true =>
        cases i with
        | Null =>
          have hE : s.handle_request_object req m =
              SingleResponseObject.Empty := by
            unfold Server.handle_request_object
            rw [hid]
            dsimp only
            split
            · split <;> rfl
            · rfl
          rw [hE]; rfl
        | Num n => simp [Id.is_null] at hnn
        | Str st => simp [Id.is_null] at hnn

/-! ### Claim theorems -/

/-- C1: for every dispatched single request whose id field is omitted
(`req.id = none`), and for every request whose id field is present with
value null (`req.id = some none`), the engine produces no response body
(`SingleResponseObject.Empty`), regardless of the registered routes,
middlewares and handlers (hence of handler success or failure). -/
theorem claim_C1 {M : Type} (s : Server M) (req : RequestObject) (m : M)
    (h : req.id = none ∨ req.id = some none) :
    s.handle_request_object req m = SingleResponseObject.Empty :=
  handle_request_object_suppressed s req m h

theorem claim_C1_witness :
    ((reqPingNoId.id = none ∨ reqPingNoId.id = some none) ∧
      testServer.handle_request_object reqPingNoId () =
        SingleResponseObject.Empty) ∧
    ((reqPingNullId.id = none ∨ reqPingNullId.id = some none) ∧
      testServer.handle_request_object reqPingNullId () =
        SingleResponseObject.Empty) :=
  ⟨⟨Or.inl rfl, claim_C1 testServer reqPingNoId () (Or.inl rfl)⟩,
   ⟨Or.inr rfl, claim_C1 testServer reqPingNullId () (Or.inr rfl)⟩⟩

/-- C2: for every single request whose id field is present with a concrete
non-null id, dispatch produces exactly one response object (a result or an
error — `ResponseObject` has exactly these two forms) whose id equals the
id of the input request. -/
theorem claim_C2 {M : Type} (s : Server M) (req : RequestObject) (m : M)
    (i : Id) (hid : req.id = some (some i)) (hnn : i.is_null = false) :
    ∃ r, s.handle_request_object req m = SingleResponseObject.One r ∧
      r.id = i :=
  handle_request_object_concrete s req m i hid hnn

theorem claim_C2_witness :
    reqPing1.id = some (some (Id.Num 1)) ∧ (Id.Num 1).is_null = false ∧
    ∃ r, testServer.handle_request_object reqPing1 () =
      SingleResponseObject.One r ∧ r.id = Id.Num 1 :=
  ⟨rfl, rfl, claim_C2 testServer reqPing1 () (Id.Num 1) rfl rfl⟩

/-- C8: for every single request with a concrete non-null id whose method
name is not registered in the router, dispatch produces an error response
with code -32601 and message "Method not found", carrying the caller's
id. -/
theorem claim_C8 {M : Type} (s : Server M) (req : RequestObject) (m : M)
    (i : Id) (hroute : s.router.get req.method = none)
    (hid : req.id = some (some i)) (hnn : i.is_null = false) :
    s.handle_request_object req m = SingleResponseObject.One
      (ResponseObject.Error (Error.Provided (-32601) "Method not found") i) := by
  unfold Server.handle_request_object
  rw [hroute, hid]
  dsimp only
  cases i with
  | Null => simp [Id.is_null] at hnn
  | Num n => rfl
  | Str st => rfl

theorem claim_C8_witness :
    testServer.router.get reqUnknown7.method = none ∧
    reqUnknown7.id = some (some (Id.Num 7)) ∧
    testServer.handle_request_object reqUnknown7 () = SingleResponseObject.One
      (ResponseObject.Error (Error.Provided (-32601) "Method not found")
        (Id.Num 7)) :=
  ⟨rfl, rfl, claim_C8 testServer reqUnknown7 () (Id.Num 7) rfl rfl rfl⟩

/-- C5: raw bytes that parse to an empty JSON batch array produce exactly
one top-level Invalid Request error response (code -32600, id null) — not
an empty list and not a no-body result. -/
theorem claim_C5 {M : Type} (s : Server M) (m : M) (bytes : List Char)
    (h : OneOrManyRawValues.try_from_slice bytes =
      Except.ok (OneOrManyRawValues.Many [])) :
    s.handle_bytes bytes m = ResponseObjects.One
      (ResponseObject.Error (Error.Provided (-32600) "Invalid Request")
        Id.Null) := by
  unfold Server.handle_bytes
  rw [h]
  rfl

theorem claim_C5_witness :
    OneOrManyRawValues.try_from_slice ("[]".toList) =
      Except.ok (OneOrManyRawValues.Many []) ∧
    testServer.handle_bytes ("[]".toList) () = ResponseObjects.One
      (ResponseObject.Error (Error.Provided (-32600) "Invalid Request")
        Id.Null) :=
  ⟨rfl, claim_C5 testServer () ("[]".toList) rfl⟩

/-- C10: every server produced by `ServerBuilder::finish` routes the
method name `"__docs__"` to the documentation route built from the
builder's recorded doc routes and notifications — whatever the builder's
router already contained under that name (so a user-registered
`"__docs__"` route is overwritten) — while `finish_unwrapped` leaves the
router exactly as the builder had it (no documentation route added). -/
theorem claim_C10 {M : Type} (b : ServerBuilder M) :
    (b.finish).router.get "__docs__" =
      some ⟨specHandler b.routes b.notifications, []⟩ ∧
    (b.finish_unwrapped).router = b.router := by
  constructor
  · simp [ServerBuilder.finish, ServerBuilder.add_documentation_route,
      MapRouter.insert, MapRouter.get]
  · rfl

/-- C4 counterexample: an envelope with no `jsonrpc` field at all
deserializes successfully (the container's `#[serde(default)]` fills the
missing field), refuting "the field is required". -/
theorem claim_C4_counterexample :
    lookupField [("method", Json.str "m")] "jsonrpc" = none ∧
    isMalformed (Json.obj [("method", Json.str "m")]) = false :=
  ⟨rfl, rfl⟩

/-- C4 (amended): when the `jsonrpc` field is present, envelope
deserialization succeeds only if its value is exactly the string `"2.0"`
— any other value fails; but the field is optional: when it is absent,
`#[serde(default)]` supplies the `V2` default and deserialization can
succeed (see the counterexample). -/
theorem claim_C4 (kvs : List (String × Json)) (j : Json)
    (hpres : lookupField kvs "jsonrpc" = some j)
    (hne : j ≠ Json.str "2.0") :
    isMalformed (Json.obj kvs) = true := by
  have hv2 : ∃ msg, deserializeV2 j = Except.error msg := by
    cases j with
    | str s =>
      by_cases hs : s = "2.0"
      · exact absurd (by rw [hs]) hne
      · exact ⟨"Could not deserialize V2", by simp [deserializeV2, hs]⟩
    | null => exact ⟨_, rfl⟩
    | bool b => exact ⟨_, rfl⟩
    | num n => exact ⟨_, rfl⟩
    | arr xs => exact ⟨_, rfl⟩
    | obj kvs2 => exact ⟨_, rfl⟩
  obtain ⟨msg, hmsg⟩ := hv2
  simp only [isMalformed, fromJsonBytesRequestObject, hpres, hmsg]
  rfl

theorem claim_C4_witness :
    lookupField [("jsonrpc", Json.str "1.0"), ("method", Json.str "m")]
      "jsonrpc" = some (Json.str "1.0") ∧
    isMalformed (Json.obj [("jsonrpc", Json.str "1.0"),
      ("method", Json.str "m")]) = true :=
  ⟨rfl, claim_C4 _ _ rfl (by simp)⟩

/-- C7 counterexample: for input `" [1]"` the first significant
(non-whitespace) byte is `[`, yet `try_from_slice` classifies the input as
a single request (`One`), because the code inspects the literal first byte
`slice.first()` without skipping whitespace. -/
theorem claim_C7_counterexample :
    (skipWs (" [1]".toList)).head? = some '[' ∧
    OneOrManyRawValues.try_from_slice (" [1]".toList) =
      Except.ok (OneOrManyRawValues.One (Json.arr [Json.num 1])) :=
  ⟨rfl, rfl⟩

/-- C7 (amended): for every raw byte input that splits successfully, the
engine treats the input as a batch (list of envelopes) exactly when the
LITERAL FIRST BYTE of the input is `[` — no whitespace is skipped before
the check. -/
theorem claim_C7 (bytes : List Char) (r : OneOrManyRawValues)
    (h : OneOrManyRawValues.try_from_slice bytes = Except.ok r) :
    r.isMany = true ↔ bytes.head? = some '[' := by
  unfold OneOrManyRawValues.try_from_slice at h
  by_cases hb : bytes.head? = some '['
  · rw [if_pos hb] at h
    split at h
    · cases h
      simp [OneOrManyRawValues.isMany, hb]
    · cases h
  · rw [if_neg hb] at h
    split at h
    · cases h
      simp [OneOrManyRawValues.isMany, hb]
    · cases h

theorem claim_C7_witness :
    OneOrManyRawValues.try_from_slice ("[1]".toList) =
      Except.ok (OneOrManyRawValues.Many [Json.num 1]) ∧
    ((OneOrManyRawValues.Many [Json.num 1]).isMany = true ↔
      ("[1]".toList).head? = some '[') :=
  ⟨rfl, claim_C7 ("[1]".toList) _ rfl⟩

/-- C3 counterexample: on a server built with global middlewares `[A, B]`
and a route `"m"` registered with its own middleware list `[C]`, a call to
`"m"` runs C first, then A, then B, then the handler — not A, B, C,
handler as claimed (`with_method_middleware` pushes the globals onto the
END of the route's list, so globals run innermost); and when B
short-circuits, C and A have already run, so B's short-circuit does not
prevent C from running — only the handler is skipped. -/
theorem claim_C3_counterexample :
    srvABC.dispatchTrace reqM () = ["C", "A", "B", "handler"] ∧
    srvABC.dispatchTrace reqM () ≠ ["A", "B", "C", "handler"] ∧
    srvABshort.dispatchTrace reqM () = ["C", "A", "B"] :=
  ⟨rfl, by decide, rfl⟩

/-- C3 (amended): for every server built with global middlewares `[A, B]`
and a route registered with its own middleware list `[C]`, the stored
chain for that route is `[C, A, B]` (global middlewares are APPENDED to
the route's own list and run innermost); a call dispatched to that route
runs C first, then A, then B, then the terminal handler; and if B returns
an error without invoking its continuation, the handler never runs — but
C and A have already run, since they precede B in the chain. -/
theorem claim_C3 {M : Type} (A B C : Mw M) (h : BoxedHandler M)
    (nm : String) (req : RequestObject) (m : M) (hm : req.method = nm) :
    (((Server.new [A, B]).with_method_middleware nm h
        [C]).finish_unwrapped).router.get nm = some ⟨h, [C, A, B]⟩ ∧
    (∀ r1 m1 r2 m2 r3 m3,
      C.step req m = Except.ok (r1, m1) →
      A.step r1 m1 = Except.ok (r2, m2) →
      B.step r2 m2 = Except.ok (r3, m3) →
      (((Server.new [A, B]).with_method_middleware nm h
          [C]).finish_unwrapped).dispatchTrace req m =
        [C.label, A.label, B.label, "handler"]) ∧
    (∀ r1 m1 r2 m2 e,
      C.step req m = Except.ok (r1, m1) →
      A.step r1 m1 = Except.ok (r2, m2) →
      B.step r2 m2 = Except.error e →
      (((Server.new [A, B]).with_method_middleware nm h
          [C]).finish_unwrapped).dispatchTrace req m =
        [C.label, A.label, B.label]) := by
  have hget : (((Server.new [A, B]).with_method_middleware nm h
      [C]).finish_unwrapped).router.get nm = some ⟨h, [C, A, B]⟩ := by
    simp [Server.new, Server.with_router, ServerBuilder.with_method_middleware,
      ServerBuilder.finish_unwrapped, MapRouter.insert, MapRouter.get,
      MapRouter.default]
  refine ⟨hget, ?_, ?_⟩
  · intro r1 m1 r2 m2 r3 m3 hC hA hB
    unfold Server.dispatchTrace
    rw [hm, hget]
    simp [runMwTraced, hC, hA, hB]
  · intro r1 m1 r2 m2 e hC hA hB
    unfold Server.dispatchTrace
    rw [hm, hget]
    simp [runMwTraced, hC, hA, hB]

theorem claim_C3_witness :
    srvABC.router.get "m" =
      some ⟨pingHandler, [mwProceed "C", mwProceed "A", mwProceed "B"]⟩ ∧
    srvABC.dispatchTrace reqM () = ["C", "A", "B", "handler"] ∧
    srvABshort.dispatchTrace reqM () = ["C", "A", "B"] := by
  have H1 := claim_C3 (mwProceed "A") (mwProceed "B") (mwProceed "C")
    pingHandler "m" reqM () rfl
  have H2 := claim_C3 (mwProceed "A") (mwFail "B") (mwProceed "C")
    pingHandler "m" reqM () rfl
  exact ⟨H1.1, H1.2.1 reqM () reqM () reqM () rfl rfl rfl,
    H2.2.2 reqM () reqM () Error.INTERNAL_ERROR rfl rfl rfl⟩

/-! ### List bookkeeping lemmas for the batch path -/

theorem list_length_filterMap {α β : Type} (f : α → Option β) (l : List α) :
    (l.filterMap f).length = l.countP (fun a => (f a).isSome) := by
  induction l with
  | nil => rfl
  | cons a t ih =>
    cases h : f a <;>
      simp [List.filterMap_cons, h, List.countP_cons, ih]

theorem list_filterMap_map {α β γ : Type} (g : α → β) (f : β → Option γ)
    (l : List α) :
    (l.map g).filterMap f = l.filterMap (fun a => f (g a)) := by
  induction l with
  | nil => rfl
  | cons a t ih => cases h : f (g a) <;> simp [List.filterMap_cons, h, ih]

theorem list_filterMap_filterMap {α β γ : Type} (f : α → Option β)
    (g : β → Option γ) (l : List α) :
    (l.filterMap f).filterMap g = l.filterMap (fun a => (f a).bind g) := by
  induction l with
  | nil => rfl
  | cons a t ih =>
    cases h : f a with
    | none => simp [List.filterMap_cons, h, ih]
    | some b =>
      cases hg : g b <;> simp [List.filterMap_cons, h, hg, ih]

theorem list_filter_map_const {α β : Type} (p : α → Bool) (c : β)
    (l : List α) :
    (l.filter p).map (fun _ => c) = List.replicate (l.countP p) c := by
  induction l with
  | nil => rfl
  | cons a t ih =>
    cases h : p a <;>
      simp [List.filter_cons, h, List.countP_cons, ih, List.replicate_succ]

theorem list_countP_map {α β : Type} (g : α → β) (p : β → Bool)
    (l : List α) :
    (l.map g).countP p = l.countP (fun a => p (g a)) := by
  induction l with
  | nil => rfl
  | cons a t ih => simp [List.countP_cons, ih]

/-- The response list of `handle_many_request_objects`: the non-suppressed
single responses, in order. -/
theorem handle_many_request_objects_toList {M : Type} (s : Server M)
    (reqs : List RequestObject) (m : M) :
    (s.handle_many_request_objects reqs m).toList =
      reqs.filterMap (fun r =>
        singleToOption (s.handle_request_object r m)) := by
  unfold Server.handle_many_request_objects
  dsimp only
  split
  · next hv =>
    simp only [ManyResponseObjects.toList]
    exact (List.isEmpty_iff.mp hv).symm
  · rfl

/-- The response list a non-empty raw batch assembles: the visible
responses of its valid elements followed by one Invalid Request (null id)
entry per malformed element. -/
theorem handle_bytes_batch_toList {M : Type} (s : Server M) (m : M)
    (bytes : List Char) (raws : List Json)
    (htry : OneOrManyRawValues.try_from_slice bytes =
      Except.ok (OneOrManyRawValues.Many raws))
    (hne : raws ≠ []) :
    (s.handle_bytes bytes m).toList =
      raws.filterMap (dispatchRaw s m) ++
        List.replicate (raws.countP isMalformed) invalidRequestNull := by
  have hraws : raws.isEmpty = false := by
    cases raws with
    | nil => exact absurd rfl hne
    | cons a t => rfl
  have herrs : ((raws.map fromJsonBytesRequestObject).filter
        exceptIsError).map (fun _ =>
          ResponseObject.Error Error.INVALID_REQUEST Id.Null) =
      List.replicate (raws.countP isMalformed) invalidRequestNull := by
    rw [list_filter_map_const, list_countP_map]
    have hpt : (fun j => exceptIsError (fromJsonBytesRequestObject j)) =
        isMalformed := by
      funext j
      cases h : fromJsonBytesRequestObject j <;>
        simp [isMalformed, exceptIsError, h]
    rw [hpt]
    rfl
  have hcomp : ((raws.map fromJsonBytesRequestObject).filterMap
        exceptToOption).filterMap (fun r =>
          singleToOption (s.handle_request_object r m)) =
      raws.filterMap (dispatchRaw s m) := by
    rw [list_filterMap_filterMap, list_filterMap_map]
    have hpt : (fun j => (exceptToOption (fromJsonBytesRequestObject j)).bind
        (fun r => singleToOption (s.handle_request_object r m))) =
        dispatchRaw s m := by
      funext j
      cases h : fromJsonBytesRequestObject j <;>
        simp [dispatchRaw, exceptToOption, h]
    rw [hpt]
  unfold Server.handle_bytes
  rw [htry]
  dsimp only
  rw [if_neg (by simp [hraws])]
  split
  · next many heq =>
    have h1 := congrArg ManyResponseObjects.toList heq
    rw [handle_many_request_objects_toList] at h1
    simp only [ManyResponseObjects.toList] at h1
    simp only [ResponseObjects.toList]
    rw [← h1, herrs, hcomp]
  · next heq =>
    have h1 := congrArg ManyResponseObjects.toList heq
    rw [handle_many_request_objects_toList] at h1
    simp only [ManyResponseObjects.toList] at h1
    rw [hcomp] at h1
    rw [herrs, h1]
    cases hk : raws.countP isMalformed with
    | zero => simp [ResponseObjects.toList]
    | succ k =>
      rw [if_neg (by simp [List.replicate_succ])]
      simp [ResponseObjects.toList]

/-- C6: for every raw-bytes batch, the assembled result consists of the
visible responses of the valid elements followed by one Invalid Request
(null id) entry per malformed element; its size is exactly (number of
valid elements whose id is concrete and non-null, i.e. non-notifications)
plus (number of malformed elements).  The model evaluates batch members in
input order — a canonical schedule for the unordered Rust completion — so
the content is deterministic while no order is claimed. -/
theorem claim_C6 {M : Type} (s : Server M) (m : M) (bytes : List Char)
    (raws : List Json)
    (htry : OneOrManyRawValues.try_from_slice bytes =
      Except.ok (OneOrManyRawValues.Many raws))
    (hne : raws ≠ []) :
    ∃ vec, (s.handle_bytes bytes m).toList =
        vec ++ List.replicate (raws.countP isMalformed) invalidRequestNull ∧
      vec.length = raws.countP contributesOk ∧
      (s.handle_bytes bytes m).count =
        raws.countP contributesOk + raws.countP isMalformed := by
  have hlen : (raws.filterMap (dispatchRaw s m)).length =
      raws.countP contributesOk := by
    rw [list_length_filterMap]
    have hpt : (fun j => (dispatchRaw s m j).isSome) = contributesOk := by
      funext j
      cases h : fromJsonBytesRequestObject j with
      | ok req =>
        simp [dispatchRaw, contributesOk, h, handle_request_object_isSome,
          requestContributes]
      | error e => simp [dispatchRaw, contributesOk, h]
    rw [hpt]
  refine ⟨raws.filterMap (dispatchRaw s m),
    handle_bytes_batch_toList s m bytes raws htry hne, hlen, ?_⟩
  unfold ResponseObjects.count
  rw [handle_bytes_batch_toList s m bytes raws htry hne]
  simp [hlen]

theorem claim_C6_witness :
    OneOrManyRawValues.try_from_slice (batchBytes.toList) =
      Except.ok (OneOrManyRawValues.Many batchRaws) ∧
    batchRaws ≠ [] ∧
    (∃ vec, (testServer.handle_bytes (batchBytes.toList) ()).toList =
        vec ++ List.replicate (batchRaws.countP isMalformed)
          invalidRequestNull ∧
      vec.length = batchRaws.countP contributesOk ∧
      (testServer.handle_bytes (batchBytes.toList) ()).count =
        batchRaws.countP contributesOk + batchRaws.countP isMalformed) ∧
    batchRaws.countP contributesOk = 1 ∧
    batchRaws.countP isMalformed = 1 ∧
    (testServer.handle_bytes (batchBytes.toList) ()).count = 2 :=
  ⟨rfl, by simp [batchRaws], claim_C6 testServer () (batchBytes.toList)
      batchRaws rfl (by simp [batchRaws]), rfl, rfl, rfl⟩

theorem list_countP_replicate_pos {α : Type} (p : α → Bool) (c : α)
    (hc : p c = true) (k : Nat) :
    (List.replicate k c).countP p = k := by
  induction k with
  | zero => rfl
  | succ k ih => simp [List.replicate_succ, List.countP_cons, hc, ih]

/-- C9: Invalid Request and Parse Error responses for unparseable or
structurally malformed raw input are always emitted with id null and never
suppressed: (a) unparseable raw input produces one visible Parse Error
with id null; (b) a parseable single request that fails envelope
deserialization produces one visible Invalid Request with id null; (c) a
non-empty batch carries at least one Invalid-Request-with-null-id entry
per malformed element; whereas (d) a well-formed single request whose
resolved id is null has its (suppressed) response dropped entirely. -/
theorem claim_C9 {M : Type} (s : Server M) (m : M) :
    (∀ bytes, OneOrManyRawValues.try_from_slice bytes = Except.error () →
      s.handle_bytes bytes m = ResponseObjects.One
        (ResponseObject.Error (Error.Provided (-32700) "Parse error")
          Id.Null)) ∧
    (∀ bytes j, OneOrManyRawValues.try_from_slice bytes =
        Except.ok (OneOrManyRawValues.One j) → isMalformed j = true →
      s.handle_bytes bytes m = ResponseObjects.One invalidRequestNull) ∧
    (∀ bytes raws, OneOrManyRawValues.try_from_slice bytes =
        Except.ok (OneOrManyRawValues.Many raws) → raws ≠ [] →
      raws.countP isMalformed ≤
        (s.handle_bytes bytes m).toList.countP isInvalidRequestNull) ∧
    (∀ bytes j req, OneOrManyRawValues.try_from_slice bytes =
        Except.ok (OneOrManyRawValues.One j) →
      fromJsonBytesRequestObject j = Except.ok req → req.id = some none →
      s.handle_bytes bytes m = ResponseObjects.Empty) := by
  refine ⟨?_, ?_, ?_, ?_⟩
  · intro bytes h
    unfold Server.handle_bytes
    rw [h]
    rfl
  · intro bytes j htry hmal
    have hj : ∃ e, fromJsonBytesRequestObject j = Except.error e := by
      cases h : fromJsonBytesRequestObject j with
      | ok req => rw [isMalformed, h] at hmal; cases hmal
      | error e => exact ⟨e, rfl⟩
    obtain ⟨e, hj⟩ := hj
    unfold Server.handle_bytes
    rw [htry]
    dsimp only
    rw [hj]
    rfl
  · intro bytes raws htry hne
    rw [handle_bytes_batch_toList s m bytes raws htry hne]
    rw [List.countP_append,
      list_countP_replicate_pos isInvalidRequestNull invalidRequestNull rfl]
    exact Nat.le_add_left _ _
  · intro bytes j req htry hj hid
    unfold Server.handle_bytes
    rw [htry]
    dsimp only
    rw [hj]
    dsimp only
    rw [handle_request_object_suppressed s req m (Or.inr hid)]

theorem claim_C9_witness :
    testServer.handle_bytes ("nope".toList) () = ResponseObjects.One
      (ResponseObject.Error (Error.Provided (-32700) "Parse error")
        Id.Null) ∧
    testServer.handle_bytes ("\x7b\"method\":5\x7d".toList) () =
      ResponseObjects.One invalidRequestNull ∧
    batchRaws.countP isMalformed ≤
      (testServer.handle_bytes (batchBytes.toList) ()).toList.countP
        isInvalidRequestNull ∧
    testServer.handle_bytes
      ("\x7b\"jsonrpc\":\"2.0\",\"method\":\"ping\",\"id\":null\x7d".toList)
      () = ResponseObjects.Empty := by
  have H := claim_C9 testServer ()
  exact ⟨H.1 _ rfl,
    H.2.1 _ (Json.obj [("method", Json.num 5)]) rfl rfl,
    H.2.2.1 _ batchRaws rfl (by simp [batchRaws]),
    H.2.2.2 _ (Json.obj [("jsonrpc", Json.str "2.0"),
        ("method", Json.str "ping"), ("id", Json.null)])
      ⟨"ping", none, some none⟩ rfl rfl rfl⟩

end JsonRpcV2
